import Mathlib

/-!
# Verification of the zsri match/team/scoring workflow

Shallow embedding of the route handlers in `src/routes/api/matches.js` and
`src/routes/api/teams.js`.  The document database is modelled as in-memory
lists of documents; a mongoose `save` is modelled as replacing the document
with the same id; handler failures are mapped to the error taxonomy of the
specification (§7): 404 → `NotFound`, membership/ownership 400/401 →
`Forbidden`/`Unauthorized`, duplicate/already-completed 400 → `Conflict`,
"Not a valid item" 400 → `InvalidArgument`, validator failures →
`ValidationFailed`, and any uncaught runtime error (the `catch` branch
answering 500) → `Internal`.

The bcrypt primitives are external collaborators; they are passed in as
parameters (`bhash` for `bcrypt.hash`, `bcompare` for `bcrypt.compare`).
Fresh document ids (assigned by the database) are likewise passed in as
parameters.
-/

namespace Zsri

/-- A `{user, xp}` roster entry, as stored in `Game.players`,
`Match.players` and `Result.players`. -/
structure Player where
  user : String
  xp : Int
deriving Repr, DecidableEq

/-- A `{user}` member entry, as stored in `Team.members`. -/
structure Member where
  user : String
deriving Repr, DecidableEq

/-- A Game document: id and roster of `{user, xp}` entries. -/
structure Game where
  id : String
  players : List Player
deriving Repr, DecidableEq

/-- A Match document, as used by `src/routes/api/matches.js`.
Modelled from the spec: the Match schema itself is not under `src/`; §3 and
§4.1 give its fields (name, host, game reference, team references, `{user}`
player entries, secret hash, completion flag initially false, optional
result reference), and the §8 scenario (`Result ... {A:10, B:0}`) shows a
player entry's xp defaults to 0. -/
structure Match where
  id : String
  name : Option String
  host : String
  game : String
  teams : List String
  players : List Player
  secret : String
  isCompleted : Bool
  result : Option String
deriving Repr, DecidableEq

/-- A Team document, as used by `src/routes/api/teams.js`; `mtch` is the
`match` field of the schema (owning match reference). -/
structure Team where
  id : String
  name : String
  mtch : String
  owner : String
  game : String
  members : List Member
  secret : String
deriving Repr, DecidableEq

/-- A Result document: snapshot of per-player scores for a match. -/
structure Result where
  id : String
  players : List Player
  mtch : String
  game : String
deriving Repr, DecidableEq

/-- The database state: one list per collection. -/
structure St where
  games : List Game
  mtchs : List Match
  teams : List Team
  results : List Result
deriving Repr, DecidableEq

/-- The error taxonomy of spec §7, covering every handler exit. -/
inductive ApiError where
  | NotFound
  | Forbidden
  | Conflict
  | Unauthorized
  | InvalidArgument
  | ValidationFailed
  | Internal
deriving Repr, DecidableEq

/-- Modelled from the spec: `helpers.isInArray` is not under `src/`; §9
describes it as a "linear scan by identifier across embedded lists".
Membership of a user id in a `{user, xp}` list. -/
def isInArray (l : List Player) (id : String) : Bool :=
  l.any (fun p => p.user == id)

/-- Modelled from the spec: `helpers.isInArray` applied to a `{user}`
member list (same linear scan by user identifier). -/
def isInArrayM (l : List Member) (id : String) : Bool :=
  l.any (fun p => p.user == id)

/-- `match.save()`: replace the document with the same id. -/
def saveMatch (s : St) (m : Match) : St :=
  { s with mtchs := s.mtchs.map (fun x => if x.id == m.id then m else x) }

/-- `game.save()`: replace the document with the same id. -/
def saveGame (s : St) (g : Game) : St :=
  { s with games := s.games.map (fun x => if x.id == g.id then g else x) }

/-- `team.save()`: replace the document with the same id. -/
def saveTeam (s : St) (t : Team) : St :=
  { s with teams := s.teams.map (fun x => if x.id == t.id then t else x) }

/-- Modelled from the spec: `helpers.createResult` is not under `src/`;
§4.3 says it "builds and persists a Result document snapshotting the
current `{user, xp}` list for the given match/game pair" and returns it.
The fresh id is supplied by the caller (database-assigned). -/
def createResult (s : St) (players : List Player) (matchId gameId newId : String) :
    Result × St :=
  let r : Result := { id := newId, players := players, mtch := matchId, game := gameId }
  (r, { s with results := r :: s.results })

/-- The request body of `POST api/matches`; absent fields are `none`. -/
structure CreateMatchBody where
  name : Option String
  secret : Option String
  gameId : Option String
deriving Repr, DecidableEq

/-- `express-validator`'s `check(field).not().isEmpty()`: passes iff the
field is present and non-empty. -/
def checkNotEmpty (v : Option String) : Bool :=
  match v with
  | none => false
  | some s => !s.isEmpty

/-- The validation chain of `POST api/matches` (matches.js lines 35-38):
`check('secret', 'Name is required')` and `check('gameId', 'Game ID is
required')`.  The `name` field is never checked.  Returns the failure
messages. -/
def validateCreateMatch (b : CreateMatchBody) : List String :=
  (if checkNotEmpty b.secret then [] else ["Name is required"]) ++
  (if checkNotEmpty b.gameId then [] else ["Game ID is required"])

/-- `POST api/matches` (matches.js lines 35-73): validation, game lookup,
roster check, then create the match with a freshly hashed secret, empty
team/player lists and `isCompleted = false` (list/flag defaults are from
the Match schema, modelled from spec §4.1). -/
def createMatch (bhash : String → String) (s : St) (userId : String)
    (b : CreateMatchBody) (newId : String) : Except ApiError Match × St :=
  if !(validateCreateMatch b).isEmpty then (.error .ValidationFailed, s)
  else
    match s.games.find? (fun g => g.id == b.gameId.getD "") with
    | none => (.error .NotFound, s)
    | some g =>
      if !isInArray g.players userId then (.error .Forbidden, s)
      else
        let m : Match :=
          { id := newId, name := b.name, host := userId, game := b.gameId.getD "",
            teams := [], players := [], secret := bhash (b.secret.getD ""),
            isCompleted := false, result := none }
        (.ok m, { s with mtchs := m :: s.mtchs })

/-- `POST api/matches/:id` — join match (matches.js lines 94-129).
The game referenced by the match is fetched without a null check; an
absent game makes `game.players` throw, answered by the 500 branch
(`Internal`). -/
def joinMatch (bcompare : String → String → Bool) (s : St)
    (matchId userId secret : String) : Except ApiError (List Player) × St :=
  match s.mtchs.find? (fun x => x.id == matchId) with
  | none => (.error .NotFound, s)
  | some m =>
    match s.games.find? (fun g => g.id == m.game) with
    | none => (.error .Internal, s)
    | some g =>
      if !isInArray g.players userId then (.error .Forbidden, s)
      else if isInArray m.players userId then (.error .Conflict, s)
      else if !bcompare secret m.secret then (.error .Unauthorized, s)
      else
        let m' := { m with players := ⟨userId, 0⟩ :: m.players }
        (.ok m'.players, saveMatch s m')

/-- `DELETE api/matches/:id` (matches.js lines 134-153): host-only delete,
cascading `Team.deleteMany({ match: id })`. -/
def deleteMatch (s : St) (matchId userId : String) : Except ApiError Unit × St :=
  match s.mtchs.find? (fun x => x.id == matchId) with
  | none => (.error .NotFound, s)
  | some m =>
    if m.host != userId then (.error .Unauthorized, s)
    else
      (.ok (),
        { s with
          mtchs := s.mtchs.eraseP (fun x => x.id == matchId),
          teams := s.teams.filter (fun t => !(t.mtch == matchId)) })

/-- JS `item.toLowerCase()`: per-character lowercasing. -/
def lowerStr (s : String) : String := ⟨s.data.map Char.toLower⟩

/-- The item-kind switch of `POST api/matches/:id/play` (matches.js lines
179-191): `item.toLowerCase()` matched against dot/fruit/ghost. -/
def pointsFor (item : String) : Option Int :=
  if lowerStr item == "dot" then some 10
  else if lowerStr item == "fruit" then some 50
  else if lowerStr item == "ghost" then some 300
  else none

/-- `players.findIndex(player => player.user.toString() === playerId)`:
index of the first player entry for `playerId`, `none` for JS's `-1`. -/
def findUserIdx : List Player → String → Option Nat
  | [], _ => none
  | p :: ps, pid =>
    if p.user == pid then some 0 else (findUserIdx ps pid).map (fun i => i + 1)

/-- `players[index].xp += points` at a given index. -/
def addXpAt (l : List Player) (i : Nat) (d : Int) : List Player :=
  match l, i with
  | [], _ => []
  | p :: ps, 0 => { p with xp := p.xp + d } :: ps
  | p :: ps, j + 1 => p :: addXpAt ps j d

/-- `POST api/matches/:id/play` (matches.js lines 158-209).
`players.findIndex(...)` with no presence check: an absent `playerId`
yields index `-1`, `players[-1].xp` throws, answered by the 500 branch
(`Internal`).  Otherwise the located player's xp is incremented, a new
Result is created from the updated list, stored on the match, and the
match is saved. -/
def recordPlay (s : St) (matchId playerId item newResultId : String) :
    Except ApiError Result × St :=
  match s.mtchs.find? (fun x => x.id == matchId) with
  | none => (.error .NotFound, s)
  | some m =>
    if m.isCompleted then (.error .Conflict, s)
    else
      match pointsFor item with
      | none => (.error .InvalidArgument, s)
      | some pts =>
        match findUserIdx m.players playerId with
        | none => (.error .Internal, s)
        | some i =>
          let players := addXpAt m.players i pts
          let (r, s1) := createResult s players matchId m.game newResultId
          let m' := { m with players := players, result := some r.id }
          (.ok r, saveMatch s1 m')

/-- `game.players.find(...).xp += parseInt(players[i].xp)`: add `d` to the
first roster entry whose user is `uid`; `none` when no entry matches (the
JS `find` returns `undefined` and the member access throws). -/
def addXp (l : List Player) (uid : String) (d : Int) : Option (List Player) :=
  match l with
  | [] => none
  | p :: ps =>
    if p.user == uid then some ({ p with xp := p.xp + d } :: ps)
    else (addXp ps uid d).map (fun l' => p :: l')

/-- The roster-update loop of `GET api/matches/:id/stop` (matches.js lines
233-236): for each snapshot entry, credit the matching roster entry and
save the game.  A snapshot user absent from the roster throws mid-loop
(500 branch), leaving the earlier saves in place. -/
def creditPlayers (s : St) (g : Game) : List Player → Except ApiError Unit × St
  | [] => (.ok (), s)
  | p :: ps =>
    match addXp g.players p.user p.xp with
    | none => (.error .Internal, s)
    | some l' =>
      let g' := { g with players := l' }
      creditPlayers (saveGame s g') g' ps

/-- `GET api/matches/:id/stop` (matches.js lines 214-244).  After the
match and completion checks, `Result.findOne` is destructured with no null
check: an absent Result document makes `const { players } = result` throw,
answered by the 500 branch (`Internal`), before any write.  Otherwise the
match is completed and saved first, then the roster-update loop runs. -/
def stopMatch (s : St) (matchId : String) : Except ApiError Unit × St :=
  match s.mtchs.find? (fun x => x.id == matchId) with
  | none => (.error .NotFound, s)
  | some m =>
    if m.isCompleted then (.error .Conflict, s)
    else
      match m.result.bind (fun rid => s.results.find? (fun r => r.id == rid)) with
      | none => (.error .Internal, s)
      | some r =>
        let m' := { m with isCompleted := true }
        let s1 := saveMatch s m'
        match s1.games.find? (fun g => g.id == m.game) with
        | none => (.error .Internal, s1)
        | some g => creditPlayers s1 g r.players

/-- `POST api/teams` (teams.js lines 32-83): game and match lookups, game
roster check, then create the team (hashed secret, owner as sole member),
save it, conditionally prepend the owner to the match players, prepend the
team reference to the match team list, and save the match. -/
def createTeam (bhash : String → String) (s : St) (userId : String)
    (name matchId gameId secret newId : String) : Except ApiError Team × St :=
  match s.games.find? (fun g => g.id == gameId) with
  | none => (.error .NotFound, s)
  | some g =>
    match s.mtchs.find? (fun x => x.id == matchId) with
    | none => (.error .NotFound, s)
    | some m =>
      if !isInArray g.players userId then (.error .Forbidden, s)
      else
        let t : Team :=
          { id := newId, name := name, mtch := matchId, owner := userId,
            game := gameId, members := [⟨userId⟩], secret := bhash secret }
        let s1 := { s with teams := t :: s.teams }
        let m1 := if isInArray m.players userId then m
                  else { m with players := ⟨userId, 0⟩ :: m.players }
        let m2 := { m1 with teams := newId :: m1.teams }
        (.ok t, saveMatch s1 m2)

/-- `POST api/teams/:teamId` — join team (teams.js lines 88-123).  The
owning match is fetched without a null check (absent match → 500 branch,
`Internal`). -/
def joinTeam (bcompare : String → String → Bool) (s : St)
    (teamId userId secret : String) : Except ApiError Team × St :=
  match s.teams.find? (fun x => x.id == teamId) with
  | none => (.error .NotFound, s)
  | some t =>
    match s.mtchs.find? (fun x => x.id == t.mtch) with
    | none => (.error .Internal, s)
    | some m =>
      if !isInArray m.players userId then (.error .Forbidden, s)
      else if isInArrayM t.members userId then (.error .Conflict, s)
      else if !bcompare secret t.secret then (.error .Unauthorized, s)
      else
        let t' := { t with members := ⟨userId⟩ :: t.members }
        (.ok t', saveTeam s t')

/-- `DELETE api/teams/:id` (teams.js lines 141-165): owner-only delete;
then `Match.findOne({ teams: { _id: id } })` locates the owning match by
reverse reference (spec §4.2), `indexOf`/`splice(removeIndex, 1)` removes
the first occurrence of the team id from its team list, and the match is
saved.  An absent owning match makes `match.teams` throw (500 branch),
after the team itself was already removed. -/
def deleteTeam (s : St) (teamId userId : String) : Except ApiError Unit × St :=
  match s.teams.find? (fun x => x.id == teamId) with
  | none => (.error .NotFound, s)
  | some t =>
    if t.owner != userId then (.error .Unauthorized, s)
    else
      let s1 := { s with teams := s.teams.eraseP (fun x => x.id == teamId) }
      match s1.mtchs.find? (fun m => m.teams.contains teamId) with
      | none => (.error .Internal, s1)
      | some m =>
        let m' := { m with teams := m.teams.erase teamId }
        (.ok (), saveMatch s1 m')

/-- One request against the service: the operations of §4.1 and §4.2 that
touch the store. -/
inductive Op where
  | createMatch (userId : String) (body : CreateMatchBody) (newId : String)
  | joinMatch (matchId userId secret : String)
  | deleteMatch (matchId userId : String)
  | recordPlay (matchId playerId item newResultId : String)
  | stopMatch (matchId : String)
  | createTeam (userId name matchId gameId secret newId : String)
  | joinTeam (teamId userId secret : String)
  | deleteTeam (teamId userId : String)
deriving Repr, DecidableEq

/-- The state after one operation (its response discarded). -/
def step (bhash : String → String) (bcompare : String → String → Bool)
    (s : St) : Op → St
  | .createMatch u b nid => (createMatch bhash s u b nid).2
  | .joinMatch mid u sec => (joinMatch bcompare s mid u sec).2
  | .deleteMatch mid u => (deleteMatch s mid u).2
  | .recordPlay mid pid item rid => (recordPlay s mid pid item rid).2
  | .stopMatch mid => (stopMatch s mid).2
  | .createTeam u n mid gid sec nid => (createTeam bhash s u n mid gid sec nid).2
  | .joinTeam tid u sec => (joinTeam bcompare s tid u sec).2
  | .deleteTeam tid u => (deleteTeam s tid u).2

/-- The database assigns fresh ids: a `createMatch` request's new id does
not collide with an existing match id. -/
def freshFor (s : St) : Op → Bool
  | .createMatch _ _ nid => s.mtchs.all (fun x => x.id != nid)
  | _ => true

/-- The membership invariant of spec §3: every match player list and every
team member list contains each user at most once. -/
def noDupMembers (s : St) : Prop :=
  (∀ m ∈ s.mtchs, (m.players.map (fun p => p.user)).Nodup) ∧
  (∀ t ∈ s.teams, (t.members.map (fun p => p.user)).Nodup)

/-- Total xp the snapshot `snap` attributes to user `u`. -/
def sumXpFor (snap : List Player) (u : String) : Int :=
  ((snap.filter (fun p => p.user == u)).map (fun p => p.xp)).sum

/-- Credit `d` xp to every roster entry of user `u` (agrees with the
first-occurrence `addXp` when the roster lists each user once). -/
def mapAdd (l : List Player) (u : String) (d : Int) : List Player :=
  l.map (fun p => if p.user == u then { p with xp := p.xp + d } else p)

/-- The cumulative effect of the stop-match roster loop on a roster. -/
def creditAll (roster snap : List Player) : List Player :=
  snap.foldl (fun acc p => mapAdd acc p.user p.xp) roster

/-- Concrete stand-in for `bcrypt.hash` in witnesses. -/
def bhW (secret : String) : String := "H" ++ secret

/-- Concrete stand-in for `bcrypt.compare` in witnesses: accepts exactly
the `bhW` image of the secret. -/
def bcW (secret hash : String) : Bool := hash == "H" ++ secret

/-- Witness store for the scoring claims: game `g1` with roster A, B;
match `m1` of `g1` with player A; no teams or results yet. -/
def stW : St :=
  { games := [{ id := "g1", players := [⟨"A", 0⟩, ⟨"B", 0⟩] }],
    mtchs := [{ id := "m1", name := some "m", host := "A", game := "g1",
                teams := [], players := [⟨"A", 0⟩], secret := "Hs1",
                isCompleted := false, result := none }],
    teams := [],
    results := [] }

/-- Witness store for the stop-match claim: match `m1` holds result `r1`,
whose snapshot is `{A: 10, B: 0}` (the §8 scenario just before stop). -/
def stWstop : St :=
  { games := [{ id := "g1", players := [⟨"A", 0⟩, ⟨"B", 0⟩] }],
    mtchs := [{ id := "m1", name := some "m", host := "A", game := "g1",
                teams := [], players := [⟨"A", 10⟩, ⟨"B", 0⟩], secret := "Hs1",
                isCompleted := false, result := some "r1" }],
    teams := [],
    results := [{ id := "r1", players := [⟨"A", 10⟩, ⟨"B", 0⟩],
                  mtch := "m1", game := "g1" }] }

/-- Witness store with a completed match `m1`. -/
def stWdone : St :=
  { games := [{ id := "g1", players := [⟨"A", 0⟩, ⟨"B", 0⟩] }],
    mtchs := [{ id := "m1", name := some "m", host := "A", game := "g1",
                teams := [], players := [⟨"A", 10⟩], secret := "Hs1",
                isCompleted := true, result := some "r1" }],
    teams := [],
    results := [{ id := "r1", players := [⟨"A", 10⟩],
                  mtch := "m1", game := "g1" }] }

/-- Witness store with a match whose result reference `r9` dangles (no
Result document). -/
def stWnores : St :=
  { games := [{ id := "g1", players := [⟨"A", 0⟩] }],
    mtchs := [{ id := "m1", name := some "m", host := "A", game := "g1",
                teams := [], players := [⟨"A", 0⟩], secret := "Hs1",
                isCompleted := false, result := some "r9" }],
    teams := [],
    results := [] }

/-- Witness store for team claims: team `t1` of match `m1` owned by A;
the match team list also holds an older team id `t0`; only A is a match
player so far. -/
def stWteam : St :=
  { games := [{ id := "g1", players := [⟨"A", 0⟩, ⟨"B", 0⟩] }],
    mtchs := [{ id := "m1", name := some "m", host := "A", game := "g1",
                teams := ["t1", "t0"], players := [⟨"A", 0⟩],
                secret := "Hs1", isCompleted := false, result := none }],
    teams := [{ id := "t1", name := "t", mtch := "m1", owner := "A",
                game := "g1", members := [⟨"A"⟩], secret := "Ht1" },
              { id := "t0", name := "t0", mtch := "m1", owner := "A",
                game := "g1", members := [⟨"A"⟩], secret := "Ht0" }],
    results := [] }

/-! ## Library of small lemmas about the embedding's building blocks -/

theorem isInArray_eq_true_iff (l : List Player) (u : String) :
    isInArray l u = true ↔ u ∈ l.map (fun p => p.user) := by
  simp [isInArray, List.any_eq_true]

theorem isInArray_eq_false_iff (l : List Player) (u : String) :
    isInArray l u = false ↔ u ∉ l.map (fun p => p.user) := by
  rw [← Bool.not_eq_true, not_iff_not]
  exact isInArray_eq_true_iff l u

theorem isInArrayM_eq_true_iff (l : List Member) (u : String) :
    isInArrayM l u = true ↔ u ∈ l.map (fun p => p.user) := by
  simp [isInArrayM, List.any_eq_true]

theorem isInArrayM_eq_false_iff (l : List Member) (u : String) :
    isInArrayM l u = false ↔ u ∉ l.map (fun p => p.user) := by
  rw [← Bool.not_eq_true, not_iff_not]
  exact isInArrayM_eq_true_iff l u

/-- Replacing the document that a `find?` by id located makes the same
`find?` return the replacement (the mongoose `save` pattern). -/
theorem find?_replace {α : Type} (idOf : α → String) (l : List α) (mid : String)
    (a aN : α) (h : l.find? (fun x => idOf x == mid) = some a)
    (hid : idOf aN = idOf a) :
    (l.map (fun x => if idOf x == idOf aN then aN else x)).find?
      (fun x => idOf x == mid) = some aN := by
  induction l with
  | nil => simp at h
  | cons b l ih =>
    by_cases hb : (idOf b == mid) = true
    · simp only [List.find?_cons, hb] at h
      have hba : b = a := by simpa using h
      subst hba
      have hmid : idOf b = mid := beq_iff_eq.mp hb
      have hbn : (idOf b == idOf aN) = true := by rw [hid]; simp
      have hn2 : (idOf aN == mid) = true := by rw [hid, hmid]; simp
      simp only [List.map_cons, hbn, if_true, List.find?_cons, hn2]
    · rw [Bool.not_eq_true] at hb
      simp only [List.find?_cons, hb] at h
      have hpa := List.find?_some h
      have hamid : idOf a = mid := beq_iff_eq.mp hpa
      have hbn : (idOf b == idOf aN) = false := by
        rw [hid, hamid]
        exact hb
      simp only [List.map_cons, hbn, Bool.false_eq_true, if_false, List.find?_cons, hb]
      exact ih h

/-- With no duplicate ids, any list member carrying the looked-up id is
the element `find?` returned. -/
theorem find?_id_unique {α : Type} (idOf : α → String) (l : List α) (mid : String)
    (m x : α) (hnd : (l.map idOf).Nodup)
    (hm : l.find? (fun y => idOf y == mid) = some m)
    (hx : x ∈ l) (hid : idOf x = mid) : x = m := by
  have hmem := List.mem_of_find?_eq_some hm
  have hpm := List.find?_some hm
  exact List.inj_on_of_nodup_map hnd hx hmem (by rw [hid, beq_iff_eq.mp hpm])

/-- Any member of a save-replaced list is the replacement or an original. -/
theorem mem_replace {α : Type} (idOf : α → String) (l : List α) (aN x : α)
    (h : x ∈ l.map (fun y => if idOf y == idOf aN then aN else y)) :
    x = aN ∨ x ∈ l := by
  rcases List.mem_map.mp h with ⟨y, hy, hxy⟩
  by_cases hc : (idOf y == idOf aN) = true
  · rw [hc] at hxy
    simp only [if_true] at hxy
    exact Or.inl hxy.symm
  · rw [Bool.not_eq_true] at hc
    rw [hc] at hxy
    simp only [Bool.false_eq_true, if_false] at hxy
    exact Or.inr (hxy ▸ hy)

/-- A member of the match collection after a `match.save()` is the saved
document or an original. -/
theorem mem_saveMatch (s : St) (mN x : Match) (h : x ∈ (saveMatch s mN).mtchs) :
    x = mN ∨ x ∈ s.mtchs := by
  have h' : x ∈ s.mtchs.map (fun y => if y.id == mN.id then mN else y) := h
  exact mem_replace (fun y => y.id) s.mtchs mN x h'

/-- A member of the team collection after a `team.save()` is the saved
document or an original. -/
theorem mem_saveTeam (s : St) (tN x : Team) (h : x ∈ (saveTeam s tN).teams) :
    x = tN ∨ x ∈ s.teams := by
  have h' : x ∈ s.teams.map (fun y => if y.id == tN.id then tN else y) := h
  exact mem_replace (fun y => y.id) s.teams tN x h'

theorem findUserIdx_get? (l : List Player) (pid : String) :
    ∀ i, findUserIdx l pid = some i →
      ∃ p, l.get? i = some p ∧ p.user = pid := by
  induction l with
  | nil => intro i h; simp [findUserIdx] at h
  | cons q l ih =>
    intro i h
    by_cases hq : (q.user == pid) = true
    · simp only [findUserIdx, hq, if_true] at h
      injection h with h
      subst h
      exact ⟨q, rfl, beq_iff_eq.mp hq⟩
    · rw [Bool.not_eq_true] at hq
      simp only [findUserIdx, hq, Bool.false_eq_true, if_false, Option.map_eq_some'] at h
      rcases h with ⟨j, hj, hji⟩
      subst hji
      exact ih j hj

theorem findUserIdx_eq_none_iff (l : List Player) (pid : String) :
    findUserIdx l pid = none ↔ isInArray l pid = false := by
  induction l with
  | nil => simp [findUserIdx, isInArray]
  | cons q l ih =>
    by_cases hq : (q.user == pid) = true
    · simp [findUserIdx, isInArray, hq]
    · rw [Bool.not_eq_true] at hq
      simp [findUserIdx, isInArray, hq, Option.map_eq_none']
      simpa [isInArray] using ih

theorem addXpAt_get?_ne (l : List Player) (d : Int) :
    ∀ i j, j ≠ i → (addXpAt l i d).get? j = l.get? j := by
  induction l with
  | nil => intro i j _; simp [addXpAt]
  | cons q l ih =>
    intro i j hji
    cases i with
    | zero =>
      cases j with
      | zero => exact absurd rfl hji
      | succ j => simp [addXpAt]
    | succ i =>
      cases j with
      | zero => simp [addXpAt]
      | succ j =>
        simp only [addXpAt, List.get?]
        exact ih i j (by omega)

theorem addXpAt_get?_eq (l : List Player) (d : Int) :
    ∀ i p, l.get? i = some p →
      (addXpAt l i d).get? i = some { p with xp := p.xp + d } := by
  induction l with
  | nil => intro i p h; simp at h
  | cons q l ih =>
    intro i p h
    cases i with
    | zero =>
      injection h with h
      subst h
      rfl
    | succ i => exact ih i p h

theorem mapAdd_users (l : List Player) (u : String) (d : Int) :
    (mapAdd l u d).map (fun p => p.user) = l.map (fun p => p.user) := by
  induction l with
  | nil => rfl
  | cons q l ih =>
    by_cases hq : (q.user == u) = true
    · simp only [mapAdd, List.map_cons, hq, if_true] at *
      rw [ih]
    · rw [Bool.not_eq_true] at hq
      simp only [mapAdd, List.map_cons, hq, Bool.false_eq_true, if_false] at *
      rw [ih]

theorem mapAdd_get? (l : List Player) (u : String) (d : Int) :
    ∀ j, (mapAdd l u d).get? j =
      (l.get? j).map (fun p => if p.user == u then { p with xp := p.xp + d } else p) := by
  induction l with
  | nil => intro j; simp [mapAdd]
  | cons q l ih =>
    intro j
    cases j with
    | zero => rfl
    | succ j => exact ih j

theorem mapAdd_of_not_mem (l : List Player) (u : String) (d : Int)
    (h : u ∉ l.map (fun p => p.user)) : mapAdd l u d = l := by
  induction l with
  | nil => rfl
  | cons q l ih =>
    simp only [List.map_cons, List.mem_cons, not_or] at h
    have hq : (q.user == u) = false := beq_eq_false_iff_ne.mpr (fun hh => h.1 hh.symm)
    simp only [mapAdd, List.map_cons, hq, Bool.false_eq_true, if_false]
    rw [show l.map (fun p => if p.user == u then { p with xp := p.xp + d } else p) = mapAdd l u d from rfl,
      ih h.2]

/-- On a roster listing each user once, the first-occurrence credit
(`addXp`, JS `find`) agrees with crediting every occurrence. -/
theorem addXp_eq_mapAdd (l : List Player) (u : String) (d : Int)
    (hnd : (l.map (fun p => p.user)).Nodup)
    (hmem : u ∈ l.map (fun p => p.user)) :
    addXp l u d = some (mapAdd l u d) := by
  induction l with
  | nil => simp at hmem
  | cons q l ih =>
    simp only [List.map_cons, List.nodup_cons] at hnd
    by_cases hq : (q.user == u) = true
    · have hqu : q.user = u := beq_iff_eq.mp hq
      have hnotl : u ∉ l.map (fun p => p.user) := hqu ▸ hnd.1
      simp only [addXp, mapAdd, List.map_cons, hq, if_true]
      rw [show l.map (fun p => if p.user == u then { p with xp := p.xp + d } else p) = mapAdd l u d from rfl,
        mapAdd_of_not_mem l u d hnotl]
    · rw [Bool.not_eq_true] at hq
      have hmem' : u ∈ l.map (fun p => p.user) := by
        rcases List.mem_cons.mp hmem with h | h
        · exact absurd h.symm (beq_eq_false_iff_ne.mp hq)
        · exact h
      simp only [addXp, mapAdd, List.map_cons, hq, Bool.false_eq_true, if_false]
      rw [show l.map (fun p => if p.user == u then { p with xp := p.xp + d } else p) = mapAdd l u d from rfl,
        ih hnd.2 hmem']
      rfl

theorem sumXpFor_cons (q : Player) (snap : List Player) (u : String) :
    sumXpFor (q :: snap) u = (if q.user == u then q.xp else 0) + sumXpFor snap u := by
  by_cases hq : (q.user == u) = true
  · simp [sumXpFor, hq]
  · rw [Bool.not_eq_true] at hq
    simp [sumXpFor, hq]

theorem creditAll_get? (snap : List Player) :
    ∀ (roster : List Player) (j : Nat),
      (creditAll roster snap).get? j =
        (roster.get? j).map (fun p => { p with xp := p.xp + sumXpFor snap p.user }) := by
  induction snap with
  | nil =>
    intro roster j
    have h0 : creditAll roster [] = roster := rfl
    rw [h0]
    cases h : roster.get? j with
    | none => rfl
    | some p => simp [sumXpFor]
  | cons q snap ih =>
    intro roster j
    have hstep : creditAll roster (q :: snap) = creditAll (mapAdd roster q.user q.xp) snap := rfl
    rw [hstep, ih, mapAdd_get?]
    cases h : roster.get? j with
    | none => rfl
    | some p =>
      simp only [Option.map_some', Option.some.injEq]
      by_cases hpu : (p.user == q.user) = true
      · have hqp : (q.user == p.user) = true := by
          rw [beq_iff_eq] at *
          exact hpu.symm
        simp only [hpu, if_true, sumXpFor_cons, hqp, Player.mk.injEq, true_and]
        omega
      · rw [Bool.not_eq_true] at hpu
        have hqp : (q.user == p.user) = false := by
          rw [beq_eq_false_iff_ne] at *
          exact fun hh => hpu hh.symm
        simp only [hpu, Bool.false_eq_true, if_false, sumXpFor_cons, hqp,
          Player.mk.injEq, true_and]
        omega

/-- The stop-match roster loop: when every snapshot user is on the roster
and the roster lists each user once, the loop succeeds, leaves the match
collection alone, and the saved game carries the cumulative credit. -/
theorem creditPlayers_ok (snap : List Player) :
    ∀ (s : St) (g : Game),
      (∀ p ∈ snap, p.user ∈ g.players.map (fun x => x.user)) →
      (g.players.map (fun x => x.user)).Nodup →
      s.games.find? (fun x => x.id == g.id) = some g →
      (creditPlayers s g snap).1 = .ok () ∧
      (creditPlayers s g snap).2.mtchs = s.mtchs ∧
      (creditPlayers s g snap).2.games.find? (fun x => x.id == g.id) =
        some { g with players := creditAll g.players snap } := by
  induction snap with
  | nil =>
    intro s g _ _ hfind
    refine ⟨rfl, rfl, ?_⟩
    have h0 : creditAll g.players [] = g.players := rfl
    rw [h0]
    exact hfind
  | cons q snap ih =>
    intro s g hmem hnd hfind
    have hq : q.user ∈ g.players.map (fun x => x.user) :=
      hmem q (List.mem_cons_self q snap)
    have haddq := addXp_eq_mapAdd g.players q.user q.xp hnd hq
    have hred : creditPlayers s g (q :: snap) =
        creditPlayers (saveGame s { g with players := mapAdd g.players q.user q.xp })
          { g with players := mapAdd g.players q.user q.xp } snap := by
      simp only [creditPlayers, haddq]
    rw [hred]
    have husers := mapAdd_users g.players q.user q.xp
    have hmem' : ∀ p ∈ snap,
        p.user ∈ (mapAdd g.players q.user q.xp).map (fun x => x.user) := by
      intro p hp
      rw [husers]
      exact hmem p (List.mem_cons_of_mem q hp)
    have hnd' : ((mapAdd g.players q.user q.xp).map (fun x => x.user)).Nodup := by
      rw [husers]
      exact hnd
    have hfind' : (saveGame s { g with players := mapAdd g.players q.user q.xp }).games.find?
        (fun x => x.id == g.id) =
        some { g with players := mapAdd g.players q.user q.xp } :=
      find?_replace (fun x => x.id) s.games g.id g
        { g with players := mapAdd g.players q.user q.xp } hfind
        (show ({ g with players := mapAdd g.players q.user q.xp } : Game).id = g.id from rfl)
    have hres := ih (saveGame s { g with players := mapAdd g.players q.user q.xp })
      { g with players := mapAdd g.players q.user q.xp } hmem' hnd' hfind'
    exact ⟨hres.1, hres.2.1, hres.2.2⟩

/-- The stop-match roster loop never touches the match collection. -/
theorem creditPlayers_mtchs (snap : List Player) :
    ∀ (s : St) (g : Game), (creditPlayers s g snap).2.mtchs = s.mtchs := by
  induction snap with
  | nil => intro s g; rfl
  | cons q snap ih =>
    intro s g
    cases h : addXp g.players q.user q.xp with
    | none => simp [creditPlayers, h]
    | some l' =>
      simp only [creditPlayers, h]
      exact ih (saveGame s { g with players := l' }) { g with players := l' }

/-- With no duplicate ids, looking a member up by its own id finds it. -/
theorem find?_id_of_mem {α : Type} (idOf : α → String) (l : List α) (m : α)
    (hnd : (l.map idOf).Nodup) (hm : m ∈ l) :
    l.find? (fun x => idOf x == idOf m) = some m := by
  induction l with
  | nil => simp at hm
  | cons b l ih =>
    simp only [List.map_cons, List.nodup_cons] at hnd
    rcases List.mem_cons.mp hm with hbm | hml
    · subst hbm
      simp [List.find?_cons]
    · have hne : idOf b ≠ idOf m := by
        intro hcontra
        exact hnd.1 (hcontra ▸ List.mem_map_of_mem idOf hml)
      have hb : (idOf b == idOf m) = false := beq_eq_false_iff_ne.mpr hne
      simp only [List.find?_cons, hb]
      exact ih hnd.2 hml

/-! ## The claims -/

/-- C10: `createMatch`'s request validation requires only that `secret` and
`gameId` are non-empty; the check labeled "Name is required" actually
validates the secret field, and the `name` field is never validated: a
request with a missing or empty name but non-empty secret and gameId passes
validation, and (when the game exists and the caller is on its roster)
a match carrying that possibly-absent name is created. -/
theorem createMatch_validates_secret_not_name
    (bhash : String → String) (s : St) (userId newId : String)
    (name : Option String) (secret gameId : String) (g : Game)
    (hs : secret.isEmpty = false) (hgid : gameId.isEmpty = false)
    (hg : s.games.find? (fun x => x.id == gameId) = some g)
    (hros : isInArray g.players userId = true) :
    validateCreateMatch ⟨name, some secret, some gameId⟩ = [] ∧
    (∀ nm : Option String,
      validateCreateMatch ⟨nm, none, some gameId⟩ = ["Name is required"]) ∧
    (∃ m s',
      createMatch bhash s userId ⟨name, some secret, some gameId⟩ newId = (.ok m, s') ∧
      m.name = name ∧ s'.mtchs = m :: s.mtchs ∧ s'.games = s.games) := by
  have hval : validateCreateMatch ⟨name, some secret, some gameId⟩ = [] := by
    simp [validateCreateMatch, checkNotEmpty, hs, hgid]
  refine ⟨hval, ?_, ?_⟩
  · intro nm
    simp [validateCreateMatch, checkNotEmpty, hgid]
  · refine ⟨(⟨newId, name, userId, gameId, [], [], bhash secret, false, none⟩ : Match),
      { s with mtchs :=
          (⟨newId, name, userId, gameId, [], [], bhash secret, false, none⟩ : Match) :: s.mtchs },
      ?_, rfl, rfl, rfl⟩
    simp [createMatch, hval, hg, hros]

/-- Witness for C10 at a concrete request with no name field. -/
theorem createMatch_validates_secret_not_name_witness :
    validateCreateMatch ⟨none, some "s2", some "g1"⟩ = [] ∧
    validateCreateMatch ⟨some "nm", none, some "g1"⟩ = ["Name is required"] ∧
    (createMatch bhW stW "A" ⟨none, some "s2", some "g1"⟩ "m2").1.map
      (fun m => m.name) = Except.ok none := by
  have h := createMatch_validates_secret_not_name bhW stW "A" "m2" none "s2" "g1"
    ⟨"g1", [⟨"A", 0⟩, ⟨"B", 0⟩]⟩ rfl rfl rfl rfl
  rcases h with ⟨h1, h2, m, s', hrun, hname, _⟩
  refine ⟨h1, h2 (some "nm"), ?_⟩
  rw [hrun]
  simp [Except.map, hname]

/-- C7 counterexample: on a match whose referenced Result document is
absent, `stopMatch` answers the generic internal error (the 500 branch,
from destructuring the null query result), not the clean `NotFound` the
claim asserts; the state is unchanged. -/
theorem stopMatch_missing_result_counterexample :
    stopMatch stWnores "m1" = (.error .Internal, stWnores) ∧
    (stopMatch stWnores "m1").1 ≠ .error .NotFound := by
  have h1 : stopMatch stWnores "m1" = (.error .Internal, stWnores) := rfl
  refine ⟨h1, ?_⟩
  rw [h1]
  simp

/-- C7 (amended): `stopMatch` fails with `NotFound` when the match is
absent; when the match exists but its referenced Result is absent it fails
with the generic internal error (an unhandled undefined-destructure mapped
to the 500 branch), not a clean `NotFound`; in both failure cases the
store is unchanged. -/
theorem stopMatch_absent_cases (s : St) (matchId : String) :
    (s.mtchs.find? (fun x => x.id == matchId) = none →
      stopMatch s matchId = (.error .NotFound, s)) ∧
    (∀ m, s.mtchs.find? (fun x => x.id == matchId) = some m →
      m.isCompleted = false →
      m.result.bind (fun rid => s.results.find? (fun r => r.id == rid)) = none →
      stopMatch s matchId = (.error .Internal, s)) := by
  constructor
  · intro h
    simp [stopMatch, h]
  · intro m hm hnc hr
    simp [stopMatch, hm, hnc, hr]

/-- Witness for C7's amended statement: absent match and dangling result. -/
theorem stopMatch_absent_cases_witness :
    stopMatch stWnores "nope" = (.error .NotFound, stWnores) ∧
    stopMatch stWnores "m1" = (.error .Internal, stWnores) := by
  have h := stopMatch_absent_cases stWnores "nope"
  have h' := stopMatch_absent_cases stWnores "m1"
  exact ⟨h.1 rfl,
    h'.2 { id := "m1", name := some "m", host := "A", game := "g1",
           teams := [], players := [⟨"A", 0⟩], secret := "Hs1",
           isCompleted := false, result := some "r9" } rfl rfl rfl⟩

/-- C8: on an existing non-completed match with a valid item kind,
`recordPlay` takes the generic internal-error branch (the undefined-access
on `players[-1]`) precisely when `playerId` is absent from the match's
player list, and that failure is not a clean `NotFound`. -/
theorem recordPlay_internal_iff_player_absent
    (s : St) (matchId playerId item rid : String) (m : Match) (v : Int)
    (hm : s.mtchs.find? (fun x => x.id == matchId) = some m)
    (hnc : m.isCompleted = false)
    (hv : pointsFor item = some v) :
    (recordPlay s matchId playerId item rid = (.error .Internal, s) ↔
      isInArray m.players playerId = false) ∧
    (recordPlay s matchId playerId item rid).1 ≠ .error .NotFound := by
  cases hidx : findUserIdx m.players playerId with
  | none =>
    have habs : isInArray m.players playerId = false :=
      (findUserIdx_eq_none_iff m.players playerId).mp hidx
    have hrun : recordPlay s matchId playerId item rid = (.error .Internal, s) := by
      simp [recordPlay, hm, hnc, hv, hidx]
    refine ⟨⟨fun _ => habs, fun _ => hrun⟩, ?_⟩
    rw [hrun]
    simp
  | some i =>
    have hpres : isInArray m.players playerId ≠ false := by
      intro hfalse
      rw [← findUserIdx_eq_none_iff m.players playerId] at hfalse
      rw [hidx] at hfalse
      exact Option.noConfusion hfalse
    have hrun : recordPlay s matchId playerId item rid =
        (.ok ⟨rid, addXpAt m.players i v, matchId, m.game⟩,
         saveMatch { s with results :=
             (⟨rid, addXpAt m.players i v, matchId, m.game⟩ : Result) :: s.results }
           { m with players := addXpAt m.players i v, result := some rid }) := by
      simp [recordPlay, hm, hnc, hv, hidx, createResult]
    constructor
    · constructor
      · intro hcontra
        rw [hrun] at hcontra
        exact absurd (congrArg Prod.fst hcontra) (by simp)
      · intro hfalse
        exact absurd hfalse hpres
    · rw [hrun]
      simp

/-- Witness for C8: with player C absent from the match, play is a 500;
with player A present, it is not. -/
theorem recordPlay_internal_iff_player_absent_witness :
    recordPlay stW "m1" "C" "dot" "r1" = (.error .Internal, stW) ∧
    ¬ recordPlay stW "m1" "A" "dot" "r1" = (.error .Internal, stW) := by
  have hC := recordPlay_internal_iff_player_absent stW "m1" "C" "dot" "r1"
    { id := "m1", name := some "m", host := "A", game := "g1",
      teams := [], players := [⟨"A", 0⟩], secret := "Hs1",
      isCompleted := false, result := none } 10 rfl rfl rfl
  have hA := recordPlay_internal_iff_player_absent stW "m1" "A" "dot" "r1"
    { id := "m1", name := some "m", host := "A", game := "g1",
      teams := [], players := [⟨"A", 0⟩], secret := "Hs1",
      isCompleted := false, result := none } 10 rfl rfl rfl
  refine ⟨hC.1.mpr rfl, ?_⟩
  intro hcontra
  have := hA.1.mp hcontra
  exact Bool.noConfusion (rfl.trans this)

/-- C1: on an existing non-completed match, the item kind is matched
case-insensitively and mapped to a fixed point value (dot→10, fruit→50,
ghost→300), and that value is added to the located player's xp with all
other entries untouched, a Result snapshotting the updated list being
created and stored on the match; for any kind outside the three,
`recordPlay` fails with `InvalidArgument`, no score changes and no Result
is created (the store is returned unchanged). -/
theorem recordPlay_item_kinds
    (s : St) (matchId playerId item rid : String) (m : Match)
    (hm : s.mtchs.find? (fun x => x.id == matchId) = some m)
    (hnc : m.isCompleted = false) :
    (lowerStr item = "dot" → pointsFor item = some 10) ∧
    (lowerStr item = "fruit" → pointsFor item = some 50) ∧
    (lowerStr item = "ghost" → pointsFor item = some 300) ∧
    (lowerStr item ∉ (["dot", "fruit", "ghost"] : List String) →
      pointsFor item = none ∧
      recordPlay s matchId playerId item rid = (.error .InvalidArgument, s)) ∧
    (∀ v i, pointsFor item = some v →
      findUserIdx m.players playerId = some i →
      ∃ r s',
        recordPlay s matchId playerId item rid = (.ok r, s') ∧
        (∃ p, m.players.get? i = some p ∧ p.user = playerId ∧
          r.players.get? i = some { p with xp := p.xp + v }) ∧
        (∀ j, j ≠ i → r.players.get? j = m.players.get? j) ∧
        s'.results = r :: s.results ∧
        s'.mtchs.find? (fun x => x.id == matchId) =
          some { m with players := r.players, result := some rid }) := by
  refine ⟨?_, ?_, ?_, ?_, ?_⟩
  · intro h
    simp [pointsFor, h]
  · intro h
    simp [pointsFor, h]
  · intro h
    simp [pointsFor, h]
  · intro h
    simp only [List.mem_cons, List.not_mem_nil, or_false, not_or] at h
    have h1 : (lowerStr item == "dot") = false := beq_eq_false_iff_ne.mpr h.1
    have h2 : (lowerStr item == "fruit") = false := beq_eq_false_iff_ne.mpr h.2.1
    have h3 : (lowerStr item == "ghost") = false := beq_eq_false_iff_ne.mpr h.2.2
    have hpf : pointsFor item = none := by
      simp [pointsFor, h1, h2, h3]
    exact ⟨hpf, by simp [recordPlay, hm, hnc, hpf]⟩
  · intro v i hv hi
    have hrun : recordPlay s matchId playerId item rid =
        (.ok ⟨rid, addXpAt m.players i v, matchId, m.game⟩,
         saveMatch { s with results :=
             (⟨rid, addXpAt m.players i v, matchId, m.game⟩ : Result) :: s.results }
           { m with players := addXpAt m.players i v, result := some rid }) := by
      simp [recordPlay, hm, hnc, hv, hi, createResult]
    refine ⟨⟨rid, addXpAt m.players i v, matchId, m.game⟩, _, hrun, ?_, ?_, rfl, ?_⟩
    · rcases findUserIdx_get? m.players playerId i hi with ⟨p, hp, hpu⟩
      exact ⟨p, hp, hpu, addXpAt_get?_eq m.players v i p hp⟩
    · intro j hj
      exact addXpAt_get?_ne m.players v i j hj
    · exact find?_replace (fun x => x.id) s.mtchs matchId m
        { m with players := addXpAt m.players i v, result := some rid } hm
        (show ({ m with players := addXpAt m.players i v, result := some rid } : Match).id
          = m.id from rfl)

/-- Witness for C1: the case-insensitive kind "DoT" credits 10 xp to
player A and creates the snapshot Result; the unknown kind "Candy" fails
with InvalidArgument leaving the store untouched. -/
theorem recordPlay_item_kinds_witness :
    pointsFor "DoT" = some 10 ∧
    recordPlay stW "m1" "A" "Candy" "r1" = (.error .InvalidArgument, stW) ∧
    (recordPlay stW "m1" "A" "DoT" "r1").1.map (fun r => r.players) =
      Except.ok [⟨"A", 10⟩] := by
  have hmW : stW.mtchs.find? (fun x => x.id == "m1") =
      some { id := "m1", name := some "m", host := "A", game := "g1",
             teams := [], players := [⟨"A", 0⟩], secret := "Hs1",
             isCompleted := false, result := none } := rfl
  have hbad := recordPlay_item_kinds stW "m1" "A" "Candy" "r1"
    { id := "m1", name := some "m", host := "A", game := "g1",
      teams := [], players := [⟨"A", 0⟩], secret := "Hs1",
      isCompleted := false, result := none } hmW rfl
  have hgood := recordPlay_item_kinds stW "m1" "A" "DoT" "r1"
    { id := "m1", name := some "m", host := "A", game := "g1",
      teams := [], players := [⟨"A", 0⟩], secret := "Hs1",
      isCompleted := false, result := none } hmW rfl
  have h10 : pointsFor "DoT" = some 10 := hgood.1 rfl
  rcases hgood.2.2.2.2 10 0 h10 rfl with ⟨r, s', hrun, -, -, -, -⟩
  exact ⟨h10, (hbad.2.2.2.1 (by decide)).2, rfl⟩

/-- C2: `joinMatch` fails with NotFound on an absent match; otherwise,
with the match's game loaded, it fails with Forbidden when the caller is
not on the game roster (regardless of the later checks), else with
Conflict when already a match player (regardless of the secret), else with
Unauthorized when the secret hash comparison fails, and otherwise prepends
`{user: userId}` to the player list, persists the match, and returns the
updated player list — the checks firing in exactly this order. -/
theorem joinMatch_check_order (bcompare : String → String → Bool) (s : St)
    (matchId userId secret : String) :
    (s.mtchs.find? (fun x => x.id == matchId) = none →
      joinMatch bcompare s matchId userId secret = (.error .NotFound, s)) ∧
    (∀ m g, s.mtchs.find? (fun x => x.id == matchId) = some m →
      s.games.find? (fun x => x.id == m.game) = some g →
      ((isInArray g.players userId = false →
          joinMatch bcompare s matchId userId secret = (.error .Forbidden, s)) ∧
       (isInArray g.players userId = true →
        isInArray m.players userId = true →
          joinMatch bcompare s matchId userId secret = (.error .Conflict, s)) ∧
       (isInArray g.players userId = true →
        isInArray m.players userId = false →
        bcompare secret m.secret = false →
          joinMatch bcompare s matchId userId secret = (.error .Unauthorized, s)) ∧
       (isInArray g.players userId = true →
        isInArray m.players userId = false →
        bcompare secret m.secret = true →
          joinMatch bcompare s matchId userId secret =
            (.ok ((⟨userId, 0⟩ : Player) :: m.players),
             saveMatch s { m with players := ⟨userId, 0⟩ :: m.players }) ∧
          (saveMatch s { m with players := ⟨userId, 0⟩ :: m.players }).mtchs.find?
              (fun x => x.id == matchId) =
            some { m with players := ⟨userId, 0⟩ :: m.players }))) := by
  constructor
  · intro h
    simp [joinMatch, h]
  · intro m g hm hg
    refine ⟨?_, ?_, ?_, ?_⟩
    · intro hros
      simp [joinMatch, hm, hg, hros]
    · intro hros hmem
      simp [joinMatch, hm, hg, hros, hmem]
    · intro hros hmem hsec
      simp [joinMatch, hm, hg, hros, hmem, hsec]
    · intro hros hmem hsec
      refine ⟨by simp [joinMatch, hm, hg, hros, hmem, hsec], ?_⟩
      exact find?_replace (fun x => x.id) s.mtchs matchId m
        { m with players := ⟨userId, 0⟩ :: m.players } hm
        (show ({ m with players := ⟨userId, 0⟩ :: m.players } : Match).id = m.id from rfl)

/-- Witness for C2: B (on the game roster, not yet a match player) joins
`m1` with the right secret, landing at the head of the player list; A,
already a player, gets Conflict; the wrong secret gets Unauthorized. -/
theorem joinMatch_check_order_witness :
    joinMatch bcW stW "m1" "B" "s1" =
      (.ok [⟨"B", 0⟩, ⟨"A", 0⟩],
       saveMatch stW { id := "m1", name := some "m", host := "A", game := "g1",
                       teams := [], players := [⟨"B", 0⟩, ⟨"A", 0⟩], secret := "Hs1",
                       isCompleted := false, result := none }) ∧
    joinMatch bcW stW "m1" "A" "s1" = (.error .Conflict, stW) ∧
    joinMatch bcW stW "m1" "B" "bad" = (.error .Unauthorized, stW) ∧
    joinMatch bcW stW "nope" "B" "s1" = (.error .NotFound, stW) := by
  have h := joinMatch_check_order bcW stW "m1" "B" "s1"
  have hA := joinMatch_check_order bcW stW "m1" "A" "s1"
  have hbad := joinMatch_check_order bcW stW "m1" "B" "bad"
  have habs := joinMatch_check_order bcW stW "nope" "B" "s1"
  have hmW : stW.mtchs.find? (fun x => x.id == "m1") =
      some { id := "m1", name := some "m", host := "A", game := "g1",
             teams := [], players := [⟨"A", 0⟩], secret := "Hs1",
             isCompleted := false, result := none } := rfl
  have hgW : stW.games.find? (fun x => x.id == "g1") =
      some { id := "g1", players := [⟨"A", 0⟩, ⟨"B", 0⟩] } := rfl
  refine ⟨?_, ?_, ?_, habs.1 rfl⟩
  · exact ((h.2 _ _ hmW hgW).2.2.2 rfl rfl rfl).1
  · exact (hA.2 _ _ hmW hgW).2.1 rfl rfl
  · exact (hbad.2 _ _ hmW hgW).2.2.1 rfl rfl rfl

/-- C6 counterexample: `createTeam` puts the new team's reference at the
*front* of the match's team list (`match.teams.unshift(team)`), so on a
match whose team list is `["t1", "t0"]` the result is `["t9", "t1", "t0"]`
and not the appended `["t1", "t0", "t9"]` the claim asserts. -/
theorem createTeam_appends_counterexample :
    ((createTeam bhW stWteam "B" "nt" "m1" "g1" "sec" "t9").2.mtchs.find?
        (fun x => x.id == "m1")).map (fun m => m.teams) =
      some ["t9", "t1", "t0"] ∧
    some ["t9", "t1", "t0"] ≠ some (["t1", "t0"] ++ ["t9"]) := by
  exact ⟨rfl, by decide⟩

/-- C6 (amended): when the game and match exist and the owner is on the
game roster, `createTeam` creates a Team with a hashed secret and members
`[{user: ownerId}]` and persists it; then, if the owning match does not
already list the owner as a player, `{user: ownerId}` is prepended to the
match's player list; the new team's reference is *prepended* (not
appended) to the match's team list; the match is persisted; and the
created Team is returned. -/
theorem createTeam_spec (bhash : String → String) (s : St)
    (userId name matchId gameId secret newId : String) (g : Game) (m : Match)
    (hg : s.games.find? (fun x => x.id == gameId) = some g)
    (hm : s.mtchs.find? (fun x => x.id == matchId) = some m)
    (hros : isInArray g.players userId = true) :
    ∃ t s',
      createTeam bhash s userId name matchId gameId secret newId = (.ok t, s') ∧
      t = ⟨newId, name, matchId, userId, gameId, [⟨userId⟩], bhash secret⟩ ∧
      s'.teams = t :: s.teams ∧
      s'.games = s.games ∧
      ∃ m2, s'.mtchs.find? (fun x => x.id == matchId) = some m2 ∧
        m2.teams = newId :: m.teams ∧
        m2.players = (if isInArray m.players userId = true then m.players
                      else ⟨userId, 0⟩ :: m.players) ∧
        m2.id = m.id ∧ m2.name = m.name ∧ m2.host = m.host ∧ m2.game = m.game ∧
        m2.secret = m.secret ∧ m2.isCompleted = m.isCompleted ∧
        m2.result = m.result := by
  by_cases hin : isInArray m.players userId = true
  · have hrun : createTeam bhash s userId name matchId gameId secret newId =
        (.ok ⟨newId, name, matchId, userId, gameId, [⟨userId⟩], bhash secret⟩,
         saveMatch { s with teams :=
             (⟨newId, name, matchId, userId, gameId, [⟨userId⟩], bhash secret⟩ : Team) :: s.teams }
           { m with teams := newId :: m.teams }) := by
      simp [createTeam, hg, hm, hros, hin]
    refine ⟨_, _, hrun, rfl, rfl, rfl, { m with teams := newId :: m.teams }, ?_,
      rfl, by simp [hin], rfl, rfl, rfl, rfl, rfl, rfl, rfl⟩
    exact find?_replace (fun x => x.id) s.mtchs matchId m
      { m with teams := newId :: m.teams } hm
      (show ({ m with teams := newId :: m.teams } : Match).id = m.id from rfl)
  · rw [Bool.not_eq_true] at hin
    have hrun : createTeam bhash s userId name matchId gameId secret newId =
        (.ok ⟨newId, name, matchId, userId, gameId, [⟨userId⟩], bhash secret⟩,
         saveMatch { s with teams :=
             (⟨newId, name, matchId, userId, gameId, [⟨userId⟩], bhash secret⟩ : Team) :: s.teams }
           { m with players := ⟨userId, 0⟩ :: m.players, teams := newId :: m.teams }) := by
      simp [createTeam, hg, hm, hros, hin]
    refine ⟨_, _, hrun, rfl, rfl, rfl,
      { m with players := ⟨userId, 0⟩ :: m.players, teams := newId :: m.teams }, ?_,
      rfl, by simp [hin], rfl, rfl, rfl, rfl, rfl, rfl, rfl⟩
    exact find?_replace (fun x => x.id) s.mtchs matchId m
      { m with players := ⟨userId, 0⟩ :: m.players, teams := newId :: m.teams } hm
      (show ({ m with players := ⟨userId, 0⟩ :: m.players, teams := newId :: m.teams } : Match).id = m.id from rfl)

/-- Witness for C6's amended statement: B (not yet a match player) creates
a team on `m1`; B is prepended to the players, `t9` to the team list. -/
theorem createTeam_spec_witness :
    (createTeam bhW stWteam "B" "nt" "m1" "g1" "sec" "t9").1 =
      .ok ⟨"t9", "nt", "m1", "B", "g1", [⟨"B"⟩], "Hsec"⟩ ∧
    ((createTeam bhW stWteam "B" "nt" "m1" "g1" "sec" "t9").2.mtchs.find?
        (fun x => x.id == "m1")).map (fun m => m.players) =
      some [⟨"B", 0⟩, ⟨"A", 0⟩] := by
  have h := createTeam_spec bhW stWteam "B" "nt" "m1" "g1" "sec" "t9"
    { id := "g1", players := [⟨"A", 0⟩, ⟨"B", 0⟩] }
    { id := "m1", name := some "m", host := "A", game := "g1",
      teams := ["t1", "t0"], players := [⟨"A", 0⟩],
      secret := "Hs1", isCompleted := false, result := none } rfl rfl rfl
  rcases h with ⟨t, s', hrun, ht, -, -, m2, hm2, -, hplayers, -⟩
  constructor
  · rw [hrun]
    simp [ht, bhW]
  · have hsnd : (createTeam bhW stWteam "B" "nt" "m1" "g1" "sec" "t9").2 = s' := by
      rw [hrun]
    rw [hsnd, hm2]
    simp only [Option.map_some', Option.some.injEq, hplayers]
    simp [isInArray]

/-- C9: `deleteTeam` fails with NotFound when the team is absent, with
Unauthorized when the requester is not the owner; otherwise it deletes the
team and, in the owning match (located by reverse reference), removes
exactly the deleted team's id by value from the team list — every other
entry keeps its multiplicity — and persists the match. -/
theorem deleteTeam_spec (s : St) (teamId userId : String) :
    (s.teams.find? (fun x => x.id == teamId) = none →
      deleteTeam s teamId userId = (.error .NotFound, s)) ∧
    (∀ t, s.teams.find? (fun x => x.id == teamId) = some t →
      (t.owner ≠ userId → deleteTeam s teamId userId = (.error .Unauthorized, s)) ∧
      (t.owner = userId →
        ∀ m, s.mtchs.find? (fun x => x.teams.contains teamId) = some m →
          (s.mtchs.map (fun x => x.id)).Nodup →
          m.teams.Nodup →
          ∃ s' m', deleteTeam s teamId userId = (.ok (), s') ∧
            s'.teams = s.teams.eraseP (fun x => x.id == teamId) ∧
            s'.games = s.games ∧ s'.results = s.results ∧
            s'.mtchs.find? (fun x => x.id == m.id) = some m' ∧
            m'.teams = m.teams.erase teamId ∧
            teamId ∉ m'.teams ∧
            (∀ x, x ≠ teamId → m'.teams.count x = m.teams.count x) ∧
            m'.players = m.players ∧ m'.isCompleted = m.isCompleted ∧
            m'.id = m.id ∧ m'.host = m.host ∧ m'.game = m.game ∧
            m'.result = m.result ∧ m'.name = m.name ∧ m'.secret = m.secret)) := by
  constructor
  · intro h
    simp [deleteTeam, h]
  · intro t ht
    constructor
    · intro howner
      have hbne : (t.owner != userId) = true := by simp [bne_iff_ne, howner]
      simp [deleteTeam, ht, hbne]
    · intro howner m hmFind hndIds hndTeams
      have hbne : (t.owner != userId) = false := by simp [bne, howner]
      have hmFind' : s.mtchs.find? (fun x => decide (teamId ∈ x.teams)) = some m := by
        simpa using hmFind
      have hrun : deleteTeam s teamId userId =
          (.ok (), saveMatch { s with teams := s.teams.eraseP (fun x => x.id == teamId) }
            { m with teams := m.teams.erase teamId }) := by
        simp [deleteTeam, ht, hbne, hmFind']
      have hbase : s.mtchs.find? (fun x => x.id == m.id) = some m :=
        find?_id_of_mem (fun x => x.id) s.mtchs m hndIds
          (List.mem_of_find?_eq_some hmFind)
      refine ⟨_, { m with teams := m.teams.erase teamId }, hrun, rfl, rfl, rfl, ?_,
        rfl, ?_, ?_, rfl, rfl, rfl, rfl, rfl, rfl, rfl, rfl⟩
      · exact find?_replace (fun x => x.id) s.mtchs m.id m
          { m with teams := m.teams.erase teamId } hbase
          (show ({ m with teams := m.teams.erase teamId } : Match).id = m.id from rfl)
      · intro hmem
        exact ((List.Nodup.mem_erase_iff hndTeams).mp hmem).1 rfl
      · intro x hx
        exact List.count_erase_of_ne hx m.teams

/-- Witness for C9: A deletes `t1`; the match's team list drops exactly
`t1`, keeping `t0`; the team collection keeps only `t0`. -/
theorem deleteTeam_spec_witness :
    (deleteTeam stWteam "t1" "A").1 = .ok () ∧
    ((deleteTeam stWteam "t1" "A").2.mtchs.find? (fun x => x.id == "m1")).map
      (fun x => x.teams) = some ["t0"] ∧
    (deleteTeam stWteam "t1" "A").2.teams.map (fun t => t.id) = ["t0"] := by
  have h := (deleteTeam_spec stWteam "t1" "A").2
    { id := "t1", name := "t", mtch := "m1", owner := "A",
      game := "g1", members := [⟨"A"⟩], secret := "Ht1" } rfl
  have hsucc := h.2 rfl
    { id := "m1", name := some "m", host := "A", game := "g1",
      teams := ["t1", "t0"], players := [⟨"A", 0⟩],
      secret := "Hs1", isCompleted := false, result := none }
    rfl (by decide) (by decide)
  rcases hsucc with ⟨s', m', hrun, hsteams, -, -, hfind, hteams, -, -, -⟩
  have h2 : (deleteTeam stWteam "t1" "A").2 = s' := by rw [hrun]
  have h1 : (deleteTeam stWteam "t1" "A").1 = .ok () := by rw [hrun]
  refine ⟨h1, ?_, ?_⟩
  · rw [h2, hfind]
    simp only [Option.map_some', Option.some.injEq]
    rw [hteams]
    rfl
  · rw [h2, hsteams]
    rfl

/-- C5: a user already on a match's or team's membership list gets
Conflict on a second join and the list is unchanged; and starting from a
store whose membership lists have no duplicate user, `joinMatch`,
`joinTeam` and `createTeam` preserve that invariant. -/
theorem membership_no_duplicates (bhash : String → String)
    (bcompare : String → String → Bool) (s : St) :
    (∀ matchId userId secret m g,
      s.mtchs.find? (fun x => x.id == matchId) = some m →
      s.games.find? (fun x => x.id == m.game) = some g →
      isInArray g.players userId = true →
      isInArray m.players userId = true →
      joinMatch bcompare s matchId userId secret = (.error .Conflict, s)) ∧
    (∀ teamId userId secret t m,
      s.teams.find? (fun x => x.id == teamId) = some t →
      s.mtchs.find? (fun x => x.id == t.mtch) = some m →
      isInArray m.players userId = true →
      isInArrayM t.members userId = true →
      joinTeam bcompare s teamId userId secret = (.error .Conflict, s)) ∧
    (noDupMembers s →
      (∀ matchId userId secret,
        noDupMembers (joinMatch bcompare s matchId userId secret).2) ∧
      (∀ teamId userId secret,
        noDupMembers (joinTeam bcompare s teamId userId secret).2) ∧
      (∀ userId name matchId gameId secret newId,
        noDupMembers (createTeam bhash s userId name matchId gameId secret newId).2)) := by
  refine ⟨?_, ?_, ?_⟩
  · intro matchId userId secret m g hm hg hros hmem
    simp [joinMatch, hm, hg, hros, hmem]
  · intro teamId userId secret t m ht hmt hpl hmem
    simp [joinTeam, ht, hmt, hpl, hmem]
  · intro hinv
    refine ⟨?_, ?_, ?_⟩
    · intro matchId userId secret
      cases hfm : s.mtchs.find? (fun x => x.id == matchId) with
      | none =>
        have hpost : (joinMatch bcompare s matchId userId secret).2 = s := by
          simp [joinMatch, hfm]
        rwa [hpost]
      | some m =>
        cases hfg : s.games.find? (fun g => g.id == m.game) with
        | none =>
          have hpost : (joinMatch bcompare s matchId userId secret).2 = s := by
            simp [joinMatch, hfm, hfg]
          rwa [hpost]
        | some g =>
          cases hros : isInArray g.players userId with
          | false =>
            have hpost : (joinMatch bcompare s matchId userId secret).2 = s := by
              simp [joinMatch, hfm, hfg, hros]
            rwa [hpost]
          | true =>
            cases hmem : isInArray m.players userId with
            | true =>
              have hpost : (joinMatch bcompare s matchId userId secret).2 = s := by
                simp [joinMatch, hfm, hfg, hros, hmem]
              rwa [hpost]
            | false =>
              cases hsec : bcompare secret m.secret with
              | false =>
                have hpost : (joinMatch bcompare s matchId userId secret).2 = s := by
                  simp [joinMatch, hfm, hfg, hros, hmem, hsec]
                rwa [hpost]
              | true =>
                have hpost : (joinMatch bcompare s matchId userId secret).2 =
                    saveMatch s { m with players := ⟨userId, 0⟩ :: m.players } := by
                  simp [joinMatch, hfm, hfg, hros, hmem, hsec]
                rw [hpost]
                refine ⟨?_, hinv.2⟩
                intro mm hmm
                rcases mem_saveMatch s
                    { m with players := ⟨userId, 0⟩ :: m.players } mm hmm with h | h
                · subst h
                  rw [show ({ m with players := ⟨userId, 0⟩ :: m.players } : Match).players = ⟨userId, 0⟩ :: m.players from rfl,
                    List.map_cons, List.nodup_cons]
                  exact ⟨(isInArray_eq_false_iff m.players userId).mp hmem,
                    hinv.1 m (List.mem_of_find?_eq_some hfm)⟩
                · exact hinv.1 mm h
    · intro teamId userId secret
      cases hft : s.teams.find? (fun x => x.id == teamId) with
      | none =>
        have hpost : (joinTeam bcompare s teamId userId secret).2 = s := by
          simp [joinTeam, hft]
        rwa [hpost]
      | some t =>
        cases hfm : s.mtchs.find? (fun x => x.id == t.mtch) with
        | none =>
          have hpost : (joinTeam bcompare s teamId userId secret).2 = s := by
            simp [joinTeam, hft, hfm]
          rwa [hpost]
        | some m =>
          cases hpl : isInArray m.players userId with
          | false =>
            have hpost : (joinTeam bcompare s teamId userId secret).2 = s := by
              simp [joinTeam, hft, hfm, hpl]
            rwa [hpost]
          | true =>
            cases hmem : isInArrayM t.members userId with
            | true =>
              have hpost : (joinTeam bcompare s teamId userId secret).2 = s := by
                simp [joinTeam, hft, hfm, hpl, hmem]
              rwa [hpost]
            | false =>
              cases hsec : bcompare secret t.secret with
              | false =>
                have hpost : (joinTeam bcompare s teamId userId secret).2 = s := by
                  simp [joinTeam, hft, hfm, hpl, hmem, hsec]
                rwa [hpost]
              | true =>
                have hpost : (joinTeam bcompare s teamId userId secret).2 =
                    saveTeam s { t with members := ⟨userId⟩ :: t.members } := by
                  simp [joinTeam, hft, hfm, hpl, hmem, hsec]
                rw [hpost]
                refine ⟨hinv.1, ?_⟩
                intro tt htt
                rcases mem_saveTeam s
                    { t with members := ⟨userId⟩ :: t.members } tt htt with h | h
                · subst h
                  rw [show ({ t with members := ⟨userId⟩ :: t.members } : Team).members = ⟨userId⟩ :: t.members from rfl,
                    List.map_cons, List.nodup_cons]
                  exact ⟨(isInArrayM_eq_false_iff t.members userId).mp hmem,
                    hinv.2 t (List.mem_of_find?_eq_some hft)⟩
                · exact hinv.2 tt h
    · intro userId name matchId gameId secret newId
      cases hfg : s.games.find? (fun g => g.id == gameId) with
      | none =>
        have hpost : (createTeam bhash s userId name matchId gameId secret newId).2 = s := by
          simp [createTeam, hfg]
        rwa [hpost]
      | some g =>
        cases hfm : s.mtchs.find? (fun x => x.id == matchId) with
        | none =>
          have hpost : (createTeam bhash s userId name matchId gameId secret newId).2 = s := by
            simp [createTeam, hfg, hfm]
          rwa [hpost]
        | some m =>
          cases hros : isInArray g.players userId with
          | false =>
            have hpost : (createTeam bhash s userId name matchId gameId secret newId).2 = s := by
              simp [createTeam, hfg, hfm, hros]
            rwa [hpost]
          | true =>
            cases hin : isInArray m.players userId with
            | true =>
              have hpost : (createTeam bhash s userId name matchId gameId secret newId).2 =
                  saveMatch { s with teams :=
                      (⟨newId, name, matchId, userId, gameId, [⟨userId⟩], bhash secret⟩ : Team) :: s.teams }
                    { m with teams := newId :: m.teams } := by
                simp [createTeam, hfg, hfm, hros, hin]
              rw [hpost]
              constructor
              · intro mm hmm
                rcases mem_saveMatch { s with teams :=
                      (⟨newId, name, matchId, userId, gameId, [⟨userId⟩], bhash secret⟩ : Team) :: s.teams }
                    { m with teams := newId :: m.teams } mm hmm with h | h
                · subst h
                  exact hinv.1 m (List.mem_of_find?_eq_some hfm)
                · exact hinv.1 mm h
              · intro tt htt
                rcases List.mem_cons.mp htt with h | h
                · subst h
                  simp
                · exact hinv.2 tt h
            | false =>
              have hpost : (createTeam bhash s userId name matchId gameId secret newId).2 =
                  saveMatch { s with teams :=
                      (⟨newId, name, matchId, userId, gameId, [⟨userId⟩], bhash secret⟩ : Team) :: s.teams }
                    { m with players := ⟨userId, 0⟩ :: m.players, teams := newId :: m.teams } := by
                simp [createTeam, hfg, hfm, hros, hin]
              rw [hpost]
              constructor
              · intro mm hmm
                rcases mem_saveMatch { s with teams :=
                      (⟨newId, name, matchId, userId, gameId, [⟨userId⟩], bhash secret⟩ : Team) :: s.teams }
                    { m with players := ⟨userId, 0⟩ :: m.players, teams := newId :: m.teams } mm hmm with h | h
                · subst h
                  rw [show ({ m with players := ⟨userId, 0⟩ :: m.players, teams := newId :: m.teams } : Match).players = ⟨userId, 0⟩ :: m.players from rfl,
                    List.map_cons, List.nodup_cons]
                  exact ⟨(isInArray_eq_false_iff m.players userId).mp hin,
                    hinv.1 m (List.mem_of_find?_eq_some hfm)⟩
                · exact hinv.1 mm h
              · intro tt htt
                rcases List.mem_cons.mp htt with h | h
                · subst h
                  simp
                · exact hinv.2 tt h

/-- Witness for C5: A rejoining match `m1` and team `t1` both answer
Conflict without touching the store; B's successful join of `m1` keeps the
membership lists duplicate-free. -/
theorem membership_no_duplicates_witness :
    joinMatch bcW stWteam "m1" "A" "s1" = (.error .Conflict, stWteam) ∧
    joinTeam bcW stWteam "t1" "A" "t1" = (.error .Conflict, stWteam) ∧
    noDupMembers (joinMatch bcW stWteam "m1" "B" "s1").2 := by
  have h := membership_no_duplicates bhW bcW stWteam
  refine ⟨?_, ?_, ?_⟩
  · exact h.1 "m1" "A" "s1"
      { id := "m1", name := some "m", host := "A", game := "g1",
        teams := ["t1", "t0"], players := [⟨"A", 0⟩],
        secret := "Hs1", isCompleted := false, result := none }
      { id := "g1", players := [⟨"A", 0⟩, ⟨"B", 0⟩] } rfl rfl rfl rfl
  · exact h.2.1 "t1" "A" "t1"
      { id := "t1", name := "t", mtch := "m1", owner := "A",
        game := "g1", members := [⟨"A"⟩], secret := "Ht1" }
      { id := "m1", name := some "m", host := "A", game := "g1",
        teams := ["t1", "t0"], players := [⟨"A", 0⟩],
        secret := "Hs1", isCompleted := false, result := none } rfl rfl rfl rfl
  · exact (h.2.2 ⟨by decide, by decide⟩).1 "m1" "B" "s1"

/-- C3: on an existing non-completed match whose Result exists, `stopMatch`
succeeds, persists the match with `isCompleted = true`, and the game ends
up persisted with every roster entry's xp increased by exactly the total
xp the Result's snapshot attributes to that entry's user (each snapshot
entry credited to its matching roster entry), all other fields and the
roster order untouched. -/
theorem stopMatch_credits_roster (s : St) (matchId : String)
    (m : Match) (r : Result) (g : Game)
    (hm : s.mtchs.find? (fun x => x.id == matchId) = some m)
    (hnc : m.isCompleted = false)
    (hr : m.result.bind (fun rid => s.results.find? (fun x => x.id == rid)) = some r)
    (hg : s.games.find? (fun x => x.id == m.game) = some g)
    (hall : ∀ p ∈ r.players, p.user ∈ g.players.map (fun x => x.user))
    (hnd : (g.players.map (fun x => x.user)).Nodup) :
    (stopMatch s matchId).1 = .ok () ∧
    (stopMatch s matchId).2.mtchs.find? (fun x => x.id == matchId) =
      some { m with isCompleted := true } ∧
    ∃ gF, (stopMatch s matchId).2.games.find? (fun x => x.id == g.id) = some gF ∧
      ∀ j, gF.players.get? j =
        (g.players.get? j).map
          (fun p => { p with xp := p.xp + sumXpFor r.players p.user }) := by
  have hgid0 := List.find?_some hg
  have hgid : g.id = m.game := beq_iff_eq.mp hgid0
  have hrun : stopMatch s matchId =
      creditPlayers (saveMatch s { m with isCompleted := true }) g r.players := by
    simp [stopMatch, saveMatch, hm, hnc, hr, hg]
  have hg' : s.games.find? (fun x => x.id == g.id) = some g := by
    rw [hgid]
    exact hg
  have hg'' : (saveMatch s { m with isCompleted := true }).games.find?
      (fun x => x.id == g.id) = some g := hg'
  have hcp := creditPlayers_ok r.players (saveMatch s { m with isCompleted := true })
    g hall hnd hg''
  refine ⟨?_, ?_, ?_⟩
  · rw [hrun]
    exact hcp.1
  · rw [hrun, creditPlayers_mtchs r.players (saveMatch s { m with isCompleted := true }) g]
    exact find?_replace (fun x => x.id) s.mtchs matchId m
      { m with isCompleted := true } hm
      (show ({ m with isCompleted := true } : Match).id = m.id from rfl)
  · refine ⟨{ g with players := creditAll g.players r.players }, ?_, ?_⟩
    · rw [hrun]
      exact hcp.2.2
    · intro j
      exact creditAll_get? r.players g.players j

/-- Witness for C3, the §8 scenario: snapshot {A: 10, B: 0}; after stop,
the match is completed, A's roster entry gains 10 xp and B's is
unchanged. -/
theorem stopMatch_credits_roster_witness :
    (stopMatch stWstop "m1").1 = .ok () ∧
    ((stopMatch stWstop "m1").2.mtchs.find? (fun x => x.id == "m1")).map
      (fun x => x.isCompleted) = some true ∧
    ((stopMatch stWstop "m1").2.games.find? (fun x => x.id == "g1")).map
      (fun x => x.players.get? 0) = some (some ⟨"A", 10⟩) ∧
    ((stopMatch stWstop "m1").2.games.find? (fun x => x.id == "g1")).map
      (fun x => x.players.get? 1) = some (some ⟨"B", 0⟩) := by
  have h := stopMatch_credits_roster stWstop "m1"
    { id := "m1", name := some "m", host := "A", game := "g1",
      teams := [], players := [⟨"A", 10⟩, ⟨"B", 0⟩], secret := "Hs1",
      isCompleted := false, result := some "r1" }
    { id := "r1", players := [⟨"A", 10⟩, ⟨"B", 0⟩], mtch := "m1", game := "g1" }
    { id := "g1", players := [⟨"A", 0⟩, ⟨"B", 0⟩] }
    rfl rfl rfl rfl (by decide) (by decide)
  rcases h with ⟨h1, h2, gF, hgF, hj⟩
  have h2' : ((stopMatch stWstop "m1").2.mtchs.find? (fun x => x.id == "m1")).map
      (fun x => x.isCompleted) = some true := by
    have h2c : (stopMatch stWstop "m1").2.mtchs.find? (fun x => x.id == "m1") =
        some { id := "m1", name := some "m", host := "A", game := "g1",
               teams := [], players := [⟨"A", 10⟩, ⟨"B", 0⟩], secret := "Hs1",
               isCompleted := true, result := some "r1" } := h2
    rw [h2c]
    rfl
  have hgF' : (stopMatch stWstop "m1").2.games.find? (fun x => x.id == "g1") =
      some gF := hgF
  refine ⟨h1, h2', ?_, ?_⟩
  · rw [hgF']
    simp only [Option.map_some', Option.some.injEq]
    rw [hj 0]
    rfl
  · rw [hgF']
    simp only [Option.map_some', Option.some.injEq]
    rw [hj 1]
    rfl

/-- Shape of the match collection after any single operation: every
document either keeps the id and completion flag of a pre-existing
document (possibly with the flag forced to `true`), or is the match a
`createMatch` request freshly created under its new id. -/
theorem step_mtchs_chars (bhash : String → String) (bcompare : String → String → Bool)
    (s : St) (op : Op) :
    ∀ x ∈ (step bhash bcompare s op).mtchs,
      (∃ y ∈ s.mtchs, x.id = y.id ∧
        (x.isCompleted = y.isCompleted ∨ x.isCompleted = true)) ∨
      (∃ u b nid, op = Op.createMatch u b nid ∧ x.id = nid) := by
  intro x hx
  cases op with
  | createMatch u b nid =>
    simp only [step] at hx
    by_cases hval : (validateCreateMatch b).isEmpty = true
    · cases hfg : s.games.find? (fun g => g.id == b.gameId.getD "") with
      | none =>
        have hpost : (createMatch bhash s u b nid).2 = s := by
          simp [createMatch, hval, hfg]
        rw [hpost] at hx
        exact Or.inl ⟨x, hx, rfl, Or.inl rfl⟩
      | some g =>
        cases hros : isInArray g.players u with
        | false =>
          have hpost : (createMatch bhash s u b nid).2 = s := by
            simp [createMatch, hval, hfg, hros]
          rw [hpost] at hx
          exact Or.inl ⟨x, hx, rfl, Or.inl rfl⟩
        | true =>
          have hpost : (createMatch bhash s u b nid).2 =
              { s with mtchs :=
                  (⟨nid, b.name, u, b.gameId.getD "", [], [],
                    bhash (b.secret.getD ""), false, none⟩ : Match) :: s.mtchs } := by
            simp [createMatch, hval, hfg, hros]
          rw [hpost] at hx
          rcases List.mem_cons.mp hx with h | h
          · exact Or.inr ⟨u, b, nid, rfl, by rw [h]⟩
          · exact Or.inl ⟨x, h, rfl, Or.inl rfl⟩
    · rw [Bool.not_eq_true] at hval
      have hpost : (createMatch bhash s u b nid).2 = s := by
        simp [createMatch, hval]
      rw [hpost] at hx
      exact Or.inl ⟨x, hx, rfl, Or.inl rfl⟩
  | joinMatch mid u sec =>
    simp only [step] at hx
    cases hfm : s.mtchs.find? (fun y => y.id == mid) with
    | none =>
      have hpost : (joinMatch bcompare s mid u sec).2 = s := by
        simp [joinMatch, hfm]
      rw [hpost] at hx
      exact Or.inl ⟨x, hx, rfl, Or.inl rfl⟩
    | some m0 =>
      cases hfg : s.games.find? (fun g => g.id == m0.game) with
      | none =>
        have hpost : (joinMatch bcompare s mid u sec).2 = s := by
          simp [joinMatch, hfm, hfg]
        rw [hpost] at hx
        exact Or.inl ⟨x, hx, rfl, Or.inl rfl⟩
      | some g =>
        cases hros : isInArray g.players u with
        | false =>
          have hpost : (joinMatch bcompare s mid u sec).2 = s := by
            simp [joinMatch, hfm, hfg, hros]
          rw [hpost] at hx
          exact Or.inl ⟨x, hx, rfl, Or.inl rfl⟩
        | true =>
          cases hmem : isInArray m0.players u with
          | true =>
            have hpost : (joinMatch bcompare s mid u sec).2 = s := by
              simp [joinMatch, hfm, hfg, hros, hmem]
            rw [hpost] at hx
            exact Or.inl ⟨x, hx, rfl, Or.inl rfl⟩
          | false =>
            cases hsec : bcompare sec m0.secret with
            | false =>
              have hpost : (joinMatch bcompare s mid u sec).2 = s := by
                simp [joinMatch, hfm, hfg, hros, hmem, hsec]
              rw [hpost] at hx
              exact Or.inl ⟨x, hx, rfl, Or.inl rfl⟩
            | true =>
              have hpost : (joinMatch bcompare s mid u sec).2 =
                  saveMatch s { m0 with players := ⟨u, 0⟩ :: m0.players } := by
                simp [joinMatch, hfm, hfg, hros, hmem, hsec]
              rw [hpost] at hx
              rcases mem_saveMatch s { m0 with players := ⟨u, 0⟩ :: m0.players } x hx with h | h
              · exact Or.inl ⟨m0, List.mem_of_find?_eq_some hfm, by rw [h], Or.inl (by rw [h])⟩
              · exact Or.inl ⟨x, h, rfl, Or.inl rfl⟩
  | deleteMatch mid u =>
    simp only [step] at hx
    cases hfm : s.mtchs.find? (fun y => y.id == mid) with
    | none =>
      have hpost : (deleteMatch s mid u).2 = s := by
        simp [deleteMatch, hfm]
      rw [hpost] at hx
      exact Or.inl ⟨x, hx, rfl, Or.inl rfl⟩
    | some m0 =>
      cases hown : m0.host != u with
      | true =>
        have hpost : (deleteMatch s mid u).2 = s := by
          simp [deleteMatch, hfm, hown]
        rw [hpost] at hx
        exact Or.inl ⟨x, hx, rfl, Or.inl rfl⟩
      | false =>
        have hpost : (deleteMatch s mid u).2 =
            { s with mtchs := s.mtchs.eraseP (fun y => y.id == mid),
                     teams := s.teams.filter (fun t => !(t.mtch == mid)) } := by
          simp [deleteMatch, hfm, hown]
        rw [hpost] at hx
        exact Or.inl ⟨x, List.mem_of_mem_eraseP hx, rfl, Or.inl rfl⟩
  | recordPlay mid pid item rid =>
    simp only [step] at hx
    cases hfm : s.mtchs.find? (fun y => y.id == mid) with
    | none =>
      have hpost : (recordPlay s mid pid item rid).2 = s := by
        simp [recordPlay, hfm]
      rw [hpost] at hx
      exact Or.inl ⟨x, hx, rfl, Or.inl rfl⟩
    | some m0 =>
      cases hcomp : m0.isCompleted with
      | true =>
        have hpost : (recordPlay s mid pid item rid).2 = s := by
          simp [recordPlay, hfm, hcomp]
        rw [hpost] at hx
        exact Or.inl ⟨x, hx, rfl, Or.inl rfl⟩
      | false =>
        cases hpts : pointsFor item with
        | none =>
          have hpost : (recordPlay s mid pid item rid).2 = s := by
            simp [recordPlay, hfm, hcomp, hpts]
          rw [hpost] at hx
          exact Or.inl ⟨x, hx, rfl, Or.inl rfl⟩
        | some v =>
          cases hidx : findUserIdx m0.players pid with
          | none =>
            have hpost : (recordPlay s mid pid item rid).2 = s := by
              simp [recordPlay, hfm, hcomp, hpts, hidx]
            rw [hpost] at hx
            exact Or.inl ⟨x, hx, rfl, Or.inl rfl⟩
          | some i =>
            have hpost : (recordPlay s mid pid item rid).2 =
                saveMatch { s with results :=
                    (⟨rid, addXpAt m0.players i v, mid, m0.game⟩ : Result) :: s.results }
                  { m0 with players := addXpAt m0.players i v, result := some rid } := by
              simp [recordPlay, hfm, hcomp, hpts, hidx, createResult]
            rw [hpost] at hx
            rcases mem_saveMatch _ { m0 with players := addXpAt m0.players i v, result := some rid }
                x hx with h | h
            · exact Or.inl ⟨m0, List.mem_of_find?_eq_some hfm, by rw [h], Or.inl (by rw [h])⟩
            · exact Or.inl ⟨x, h, rfl, Or.inl rfl⟩
  | stopMatch mid =>
    simp only [step] at hx
    cases hfm : s.mtchs.find? (fun y => y.id == mid) with
    | none =>
      have hpost : (stopMatch s mid).2 = s := by
        simp [stopMatch, hfm]
      rw [hpost] at hx
      exact Or.inl ⟨x, hx, rfl, Or.inl rfl⟩
    | some m0 =>
      cases hcomp : m0.isCompleted with
      | true =>
        have hpost : (stopMatch s mid).2 = s := by
          simp [stopMatch, hfm, hcomp]
        rw [hpost] at hx
        exact Or.inl ⟨x, hx, rfl, Or.inl rfl⟩
      | false =>
        cases hres : m0.result.bind (fun rid => s.results.find? (fun r => r.id == rid)) with
        | none =>
          have hpost : (stopMatch s mid).2 = s := by
            simp [stopMatch, hfm, hcomp, hres]
          rw [hpost] at hx
          exact Or.inl ⟨x, hx, rfl, Or.inl rfl⟩
        | some r0 =>
          cases hfg : s.games.find? (fun g => g.id == m0.game) with
          | none =>
            have hpost : (stopMatch s mid).2 =
                saveMatch s { m0 with isCompleted := true } := by
              simp [stopMatch, saveMatch, hfm, hcomp, hres, hfg]
            rw [hpost] at hx
            rcases mem_saveMatch s { m0 with isCompleted := true } x hx with h | h
            · exact Or.inl ⟨m0, List.mem_of_find?_eq_some hfm, by rw [h], Or.inr (by rw [h])⟩
            · exact Or.inl ⟨x, h, rfl, Or.inl rfl⟩
          | some g =>
            have hpost : (stopMatch s mid).2 =
                (creditPlayers (saveMatch s { m0 with isCompleted := true }) g r0.players).2 := by
              simp [stopMatch, saveMatch, hfm, hcomp, hres, hfg]
            rw [hpost, creditPlayers_mtchs r0.players
              (saveMatch s { m0 with isCompleted := true }) g] at hx
            rcases mem_saveMatch s { m0 with isCompleted := true } x hx with h | h
            · exact Or.inl ⟨m0, List.mem_of_find?_eq_some hfm, by rw [h], Or.inr (by rw [h])⟩
            · exact Or.inl ⟨x, h, rfl, Or.inl rfl⟩
  | createTeam u n mid gid sec nid =>
    simp only [step] at hx
    cases hfg : s.games.find? (fun g => g.id == gid) with
    | none =>
      have hpost : (createTeam bhash s u n mid gid sec nid).2 = s := by
        simp [createTeam, hfg]
      rw [hpost] at hx
      exact Or.inl ⟨x, hx, rfl, Or.inl rfl⟩
    | some g =>
      cases hfm : s.mtchs.find? (fun y => y.id == mid) with
      | none =>
        have hpost : (createTeam bhash s u n mid gid sec nid).2 = s := by
          simp [createTeam, hfg, hfm]
        rw [hpost] at hx
        exact Or.inl ⟨x, hx, rfl, Or.inl rfl⟩
      | some m0 =>
        cases hros : isInArray g.players u with
        | false =>
          have hpost : (createTeam bhash s u n mid gid sec nid).2 = s := by
            simp [createTeam, hfg, hfm, hros]
          rw [hpost] at hx
          exact Or.inl ⟨x, hx, rfl, Or.inl rfl⟩
        | true =>
          cases hin : isInArray m0.players u with
          | true =>
            have hpost : (createTeam bhash s u n mid gid sec nid).2 =
                saveMatch { s with teams :=
                    (⟨nid, n, mid, u, gid, [⟨u⟩], bhash sec⟩ : Team) :: s.teams }
                  { m0 with teams := nid :: m0.teams } := by
              simp [createTeam, hfg, hfm, hros, hin]
            rw [hpost] at hx
            rcases mem_saveMatch _ { m0 with teams := nid :: m0.teams } x hx with h | h
            · exact Or.inl ⟨m0, List.mem_of_find?_eq_some hfm, by rw [h], Or.inl (by rw [h])⟩
            · exact Or.inl ⟨x, h, rfl, Or.inl rfl⟩
          | false =>
            have hpost : (createTeam bhash s u n mid gid sec nid).2 =
                saveMatch { s with teams :=
                    (⟨nid, n, mid, u, gid, [⟨u⟩], bhash sec⟩ : Team) :: s.teams }
                  { m0 with players := ⟨u, 0⟩ :: m0.players, teams := nid :: m0.teams } := by
              simp [createTeam, hfg, hfm, hros, hin]
            rw [hpost] at hx
            rcases mem_saveMatch _
                { m0 with players := ⟨u, 0⟩ :: m0.players, teams := nid :: m0.teams } x hx with h | h
            · exact Or.inl ⟨m0, List.mem_of_find?_eq_some hfm, by rw [h], Or.inl (by rw [h])⟩
            · exact Or.inl ⟨x, h, rfl, Or.inl rfl⟩
  | joinTeam tid u sec =>
    simp only [step] at hx
    have hpost : ∀ st2 : St, (joinTeam bcompare s tid u sec).2 = st2 →
        st2.mtchs = s.mtchs → x ∈ s.mtchs := by
      intro st2 h1 h2
      rw [h1, h2] at hx
      exact hx
    cases hft : s.teams.find? (fun y => y.id == tid) with
    | none =>
      refine Or.inl ⟨x, hpost s (by simp [joinTeam, hft]) rfl, rfl, Or.inl rfl⟩
    | some t0 =>
      cases hfm : s.mtchs.find? (fun y => y.id == t0.mtch) with
      | none =>
        refine Or.inl ⟨x, hpost s (by simp [joinTeam, hft, hfm]) rfl, rfl, Or.inl rfl⟩
      | some m0 =>
        cases hpl : isInArray m0.players u with
        | false =>
          refine Or.inl ⟨x, hpost s (by simp [joinTeam, hft, hfm, hpl]) rfl, rfl, Or.inl rfl⟩
        | true =>
          cases hmem : isInArrayM t0.members u with
          | true =>
            refine Or.inl ⟨x, hpost s (by simp [joinTeam, hft, hfm, hpl, hmem]) rfl,
              rfl, Or.inl rfl⟩
          | false =>
            cases hsec : bcompare sec t0.secret with
            | false =>
              refine Or.inl ⟨x, hpost s (by simp [joinTeam, hft, hfm, hpl, hmem, hsec]) rfl,
                rfl, Or.inl rfl⟩
            | true =>
              refine Or.inl ⟨x, hpost (saveTeam s { t0 with members := ⟨u⟩ :: t0.members })
                (by simp [joinTeam, hft, hfm, hpl, hmem, hsec]) rfl, rfl, Or.inl rfl⟩
  | deleteTeam tid u =>
    simp only [step] at hx
    cases hft : s.teams.find? (fun y => y.id == tid) with
    | none =>
      have hpost : (deleteTeam s tid u).2 = s := by
        simp [deleteTeam, hft]
      rw [hpost] at hx
      exact Or.inl ⟨x, hx, rfl, Or.inl rfl⟩
    | some t0 =>
      cases hown : t0.owner != u with
      | true =>
        have hpost : (deleteTeam s tid u).2 = s := by
          simp [deleteTeam, hft, hown]
        rw [hpost] at hx
        exact Or.inl ⟨x, hx, rfl, Or.inl rfl⟩
      | false =>
        cases hfc : s.mtchs.find? (fun y => decide (tid ∈ y.teams)) with
        | none =>
          have hpost : (deleteTeam s tid u).2 =
              { s with teams := s.teams.eraseP (fun y => y.id == tid) } := by
            simp [deleteTeam, hft, hown, hfc]
          rw [hpost] at hx
          exact Or.inl ⟨x, hx, rfl, Or.inl rfl⟩
        | some m0 =>
          have hpost : (deleteTeam s tid u).2 =
              saveMatch { s with teams := s.teams.eraseP (fun y => y.id == tid) }
                { m0 with teams := m0.teams.erase tid } := by
            simp [deleteTeam, hft, hown, hfc]
          rw [hpost] at hx
          rcases mem_saveMatch _ { m0 with teams := m0.teams.erase tid } x hx with h | h
          · exact Or.inl ⟨m0, List.mem_of_find?_eq_some hfc, by rw [h], Or.inl (by rw [h])⟩
          · exact Or.inl ⟨x, h, rfl, Or.inl rfl⟩

/-- C4: once a match is completed, no operation (with database-assigned
fresh ids and unique match ids) ever shows it as non-completed again — the
flag is monotone — and `recordPlay` and `stopMatch` on it fail with
Conflict. -/
theorem isCompleted_monotone (bhash : String → String)
    (bcompare : String → String → Bool) (s : St) (op : Op)
    (matchId : String) (m : Match)
    (hnd : (s.mtchs.map (fun x => x.id)).Nodup)
    (hfresh : freshFor s op = true)
    (hm : s.mtchs.find? (fun x => x.id == matchId) = some m)
    (hc : m.isCompleted = true) :
    (∀ m', (step bhash bcompare s op).mtchs.find? (fun x => x.id == matchId) = some m' →
      m'.isCompleted = true) ∧
    (∀ playerId item rid,
      (recordPlay s matchId playerId item rid).1 = .error .Conflict) ∧
    (stopMatch s matchId).1 = .error .Conflict := by
  refine ⟨?_, ?_, ?_⟩
  · intro m' hm'
    have hmem := List.mem_of_find?_eq_some hm'
    have hpid := List.find?_some hm'
    have hmid : m'.id = matchId := beq_iff_eq.mp hpid
    have hpm := List.find?_some hm
    have hmidm : m.id = matchId := beq_iff_eq.mp hpm
    rcases step_mtchs_chars bhash bcompare s op m' hmem with
      ⟨y, hy, hid, hcy⟩ | ⟨u, b, nid, hop, hxid⟩
    · have hyid : y.id = matchId := by rw [← hid, hmid]
      have hym := find?_id_unique (fun x => x.id) s.mtchs matchId m y hnd hm hy hyid
      rcases hcy with hcy | hcy
      · rw [hcy, hym]
        exact hc
      · exact hcy
    · subst hop
      simp only [freshFor, List.all_eq_true] at hfresh
      have hne := hfresh m (List.mem_of_find?_eq_some hm)
      rw [bne_iff_ne] at hne
      exact absurd (hmidm.trans (hmid.symm.trans hxid)) hne
  · intro playerId item rid
    simp [recordPlay, hm, hc]
  · simp [stopMatch, hm, hc]

/-- Witness for C4: joining the completed match `m1` leaves it completed,
and play/stop on it answer Conflict. -/
theorem isCompleted_monotone_witness :
    ((step bhW bcW stWdone (Op.joinMatch "m1" "B" "s1")).mtchs.find?
        (fun x => x.id == "m1")).map (fun x => x.isCompleted) = some true ∧
    (recordPlay stWdone "m1" "A" "dot" "r2").1 = .error .Conflict ∧
    (stopMatch stWdone "m1").1 = .error .Conflict := by
  have h := isCompleted_monotone bhW bcW stWdone (Op.joinMatch "m1" "B" "s1") "m1"
    { id := "m1", name := some "m", host := "A", game := "g1",
      teams := [], players := [⟨"A", 10⟩], secret := "Hs1",
      isCompleted := true, result := some "r1" }
    (by decide) rfl rfl rfl
  refine ⟨?_, h.2.1 "A" "dot" "r2", h.2.2⟩
  have hfind : (step bhW bcW stWdone (Op.joinMatch "m1" "B" "s1")).mtchs.find?
      (fun x => x.id == "m1") =
      some { id := "m1", name := some "m", host := "A", game := "g1",
             teams := [], players := [⟨"B", 0⟩, ⟨"A", 10⟩], secret := "Hs1",
             isCompleted := true, result := some "r1" } := rfl
  have hco := h.1 _ hfind
  rw [hfind]
  simp only [Option.map_some', hco]

end Zsri
